import Mathlib

/-!
Verification of `urllib3/contrib/unix.py`: Unix-domain-socket transport for
the urllib3 connection-pool framework.  The module under source control
defines `UnixHTTPConnection`, `UnixHTTPConnectionPool`,
`UnixHostHTTPConnectionPool` and `UnixHTTPPoolManager`.  The generic
framework they extend (`HTTPConnection`, `HTTPConnectionPool`, `PoolManager`,
`Timeout`, the logging facility and the lock discipline of the pool) is not
part of the sources; where a definition depends on it, the definition is
modelled from the specification and says so in its doc comment.
-/

namespace Urllib3Unix

/-- Timeout configuration value for a socket: either the library-global
default sentinel `SOCKET_GLOBAL_DEFAULT_TIMEOUT` (compared by identity in the
source, hence a dedicated constructor here) or an explicit duration. -/
inductive TimeoutVal where
  | globalDefault
  | explicit (t : Nat)
deriving DecidableEq

/-- A socket option triple (level, optname, value) as passed to
`setsockopt`. -/
structure SockOpt where
  level : Int
  optname : Int
  value : Int
deriving DecidableEq

/-- Socket address family; the source uses `socket.AF_UNIX`. -/
inductive AddrFamily where
  | af_unix
  | af_inet
deriving DecidableEq

/-- Socket kind; the source uses `socket.SOCK_STREAM`. -/
inductive SockKind where
  | sock_stream
  | sock_dgram
deriving DecidableEq

/-- Observable low-level socket actions performed by
`UnixHTTPConnection._new_conn`, in order. -/
inductive SockEvent where
  | create (fam : AddrFamily) (kind : SockKind)
  | setopt (o : SockOpt)
  | settimeout (t : Nat)
  | connectTo (path : String)
  | close
deriving DecidableEq

/-- State of a `UnixHTTPConnection`.  Modelled from the spec for the base
part: the generic `HTTPConnection` (not under the sources) stores the host
used as the default Host header, the timeout and the socket options passed
through the keyword configuration. -/
structure UnixHTTPConnection where
  socket_path : String
  host : String
  timeout : TimeoutVal
  socket_options : List SockOpt
deriving DecidableEq

/-- Keyword arguments (`**kwargs`) forwarded by `UnixHTTPConnection.__init__`
to the generic constructor.  A `some` in `host` models the caller passing an
explicit `host=` keyword argument. -/
structure ConnKwargs where
  host : Option String
  timeout : TimeoutVal
  socket_options : List SockOpt
deriving DecidableEq

/-- Python-level errors raised before any connection work happens. -/
inductive PyErr where
  | typeError
deriving DecidableEq

/-- The successfully-constructed connection: socket path stored, host fixed
to the synthetic value "localhost" (see the comment in the source: "there's
no sensible default value other than 'localhost'"). -/
def UnixHTTPConnection.make (socket_path : String) (timeout : TimeoutVal)
    (opts : List SockOpt) : UnixHTTPConnection :=
  { socket_path := socket_path
    host := "localhost"
    timeout := timeout
    socket_options := opts }

/-- Embedding of `UnixHTTPConnection.__init__(self, socket_path, **kwargs)`:
stores the socket path and calls `super().__init__(host="localhost",
**kwargs)`.  When the caller's kwargs already contain `host`, the call
supplies the keyword `host` twice, which Python rejects with a `TypeError`
before the base constructor runs. -/
def UnixHTTPConnection.init (socket_path : String) (kwargs : ConnKwargs) :
    Except PyErr UnixHTTPConnection :=
  match kwargs.host with
  | some _ => Except.error PyErr.typeError
  | none =>
      Except.ok (UnixHTTPConnection.make socket_path kwargs.timeout kwargs.socket_options)

/-- Embedding of the class attribute `UnixHTTPConnection.default_port = None`
(the source overrides "all port stuff, since there is no port"). -/
def UnixHTTPConnection.default_port : Option Nat := none

/-- Embedding of `_set_socket_options(sock, options)` from
`urllib3.util.connection` (not under the sources).  Modelled from the spec:
"applies configured socket options before connecting" — one `setsockopt`
call per configured triple, in order. -/
def set_socket_options (opts : List SockOpt) : List SockEvent :=
  opts.map SockEvent.setopt

/-- The `settimeout` calls made by `UnixHTTPConnection._new_conn`: exactly
one when the timeout is not the global-default sentinel, none otherwise
(`if self.timeout is not SOCKET_GLOBAL_DEFAULT_TIMEOUT`). -/
def timeoutEvents : TimeoutVal → List SockEvent
  | TimeoutVal.globalDefault => []
  | TimeoutVal.explicit t => [SockEvent.settimeout t]

/-- Embedding of `UnixHTTPConnection._new_conn` as its ordered sequence of
socket actions: create an `AF_UNIX`/`SOCK_STREAM` socket, apply the socket
options, optionally set the timeout, then connect to the socket path. -/
def UnixHTTPConnection.new_conn_trace (c : UnixHTTPConnection) : List SockEvent :=
  [SockEvent.create AddrFamily.af_unix SockKind.sock_stream]
    ++ set_socket_options c.socket_options
    ++ timeoutEvents c.timeout
    ++ [SockEvent.connectTo c.socket_path]

/-- Operating-system level failure of `sock.connect` (ENOENT, ECONNREFUSED,
EACCES on the socket path). -/
inductive OSErr where
  | connectFailure
deriving DecidableEq

/-- Run of `UnixHTTPConnection._new_conn` against an environment `env`
telling whether `connect` on a path succeeds.  The returned trace lists the
socket actions performed; the second component is the connected socket
(identified by its path) or the error `connect` raised.  The source body has
no `try`/`finally` and no `close` call: when `connect` raises, the exception
propagates and the just-created socket is not closed, so the trace is the
same in both cases and never contains `SockEvent.close`. -/
def UnixHTTPConnection.new_conn_run (c : UnixHTTPConnection) (env : String → Bool) :
    List SockEvent × Except OSErr String :=
  (c.new_conn_trace,
   if env c.socket_path then Except.ok c.socket_path
   else Except.error OSErr.connectFailure)

/-- Runtime class of a pool object (Python's `type(self)`), used by
`__str__` via `type(self).__name__`. -/
inductive UnixPoolCls where
  | unixHTTPConnectionPool
  | unixHostHTTPConnectionPool
deriving DecidableEq

/-- Python `type(self).__name__` for the two pool classes. -/
def UnixPoolCls.name : UnixPoolCls → String
  | UnixPoolCls.unixHTTPConnectionPool => "UnixHTTPConnectionPool"
  | UnixPoolCls.unixHostHTTPConnectionPool => "UnixHostHTTPConnectionPool"

/-- Modelled from the spec: the pool's configured timeout policy (urllib3's
`Timeout` object, not under the sources) carries a connect component and a
read component; `UnixHTTPConnectionPool._new_conn` reads
`self.timeout.connect_timeout`. -/
structure Timeout where
  connect_timeout : TimeoutVal
  read_timeout : TimeoutVal
deriving DecidableEq

/-- Pool configuration forwarded through `**conn_kw`: the timeout policy the
generic pool constructor stores, and the extra connection keyword arguments
(socket options) the pool forwards to every connection it creates. -/
structure PoolKw where
  timeout : Timeout
  conn_kw : List SockOpt
deriving DecidableEq

/-- State of a `UnixHTTPConnectionPool`.  Modelled from the spec for the
base part: the generic `HTTPConnectionPool` (not under the sources) stores
the host, the timeout policy and the extra connection kwargs, and starts the
creation counter `num_connections` at zero. -/
structure UnixHTTPConnectionPool where
  cls : UnixPoolCls
  socket_path : String
  host : String
  timeout : Timeout
  conn_kw : List SockOpt
  num_connections : Nat
deriving DecidableEq

/-- Embedding of `UnixHTTPConnectionPool.__init__(self, socket_path,
**conn_kw)`: stores the socket path, then delegates to the generic pool
constructor with `host=socket_path`.  `cls` is the runtime class of `self`,
which Python supplies implicitly (the URI-addressed subclass constructs with
its own class).  The construction is total: no input raises. -/
def UnixHTTPConnectionPool.init (cls : UnixPoolCls) (socket_path : String)
    (kw : PoolKw) : UnixHTTPConnectionPool :=
  { cls := cls
    socket_path := socket_path
    host := socket_path
    timeout := kw.timeout
    conn_kw := kw.conn_kw
    num_connections := 0 }

/-- One `log.debug("Starting new HTTP connection (%d): %s", ...)` event:
the counter value and the destination socket path it carries. -/
structure LogEvent where
  count : Nat
  dest : String
deriving DecidableEq

/-- Embedding of `UnixHTTPConnectionPool._new_conn`: increment
`num_connections`, emit one debug event carrying the new counter value and
the socket path, and build a `UnixHTTPConnection` with
`socket_path=self.socket_path`, `timeout=self.timeout.connect_timeout` and
`**self.conn_kw`. -/
def UnixHTTPConnectionPool.new_conn (p : UnixHTTPConnectionPool) :
    UnixHTTPConnectionPool × LogEvent × UnixHTTPConnection :=
  let n := p.num_connections + 1
  ({ p with num_connections := n },
   { count := n, dest := p.socket_path },
   UnixHTTPConnection.make p.socket_path p.timeout.connect_timeout p.conn_kw)

/-- Embedding of the class attribute `UnixHostHTTPConnectionPool.scheme`. -/
def UnixHostHTTPConnectionPool.scheme : String := "http+unix"

/-- Embedding of `UnixHostHTTPConnectionPool.__init__(self, host, port=None,
**conn_kw)`: `port` exists for API compatibility but is ignored; `host` is
passed straight through as the socket path.  Total: no input raises. -/
def UnixHostHTTPConnectionPool.init (host : String) (port : Option Nat)
    (kw : PoolKw) : UnixHTTPConnectionPool :=
  UnixHTTPConnectionPool.init UnixPoolCls.unixHostHTTPConnectionPool host kw

/-- Identity of a key-derivation function object.  Python stores function
objects in `key_fn_by_scheme`; reference identity (`is`) of two entries is
modelled as equality of these identifiers, with distinct identifiers for the
distinct default entries. -/
structure KeyFnRef where
  id : Nat
deriving DecidableEq

/-- A pool class stored in `pool_classes_by_scheme`. -/
inductive PoolClass where
  | httpPool
  | httpsPool
  | unixHostPool
deriving DecidableEq

/-- State of a `PoolManager`: its construction arguments and its two scheme
registries. -/
structure PoolManagerState where
  num_pools : Nat
  headers : List (String × String)
  pool_classes_by_scheme : String → Option PoolClass
  key_fn_by_scheme : String → Option KeyFnRef

/-- Modelled from the spec: the generic `PoolManager.__init__` (not under
the sources) stores the construction arguments and installs per-instance
scheme registries with default entries for "http" and "https" — the pool
classes, and one key-derivation function object per scheme (distinct
objects, hence distinct identifiers). -/
def PoolManager.init (num_pools : Nat) (headers : List (String × String)) :
    PoolManagerState :=
  { num_pools := num_pools
    headers := headers
    pool_classes_by_scheme := fun s =>
      if s = "http" then some PoolClass.httpPool
      else if s = "https" then some PoolClass.httpsPool
      else none
    key_fn_by_scheme := fun s =>
      if s = "http" then some { id := 0 }
      else if s = "https" then some { id := 1 }
      else none }

/-- Embedding of `UnixHTTPPoolManager.__init__`: delegate to the generic
manager constructor, then set
`pool_classes_by_scheme[UnixHostHTTPConnectionPool.scheme] =
UnixHostHTTPConnectionPool` and
`key_fn_by_scheme[UnixHostHTTPConnectionPool.scheme] =
key_fn_by_scheme["http"]` (the looked-up entry itself is stored). -/
def UnixHTTPPoolManager.init (num_pools : Nat) (headers : List (String × String)) :
    PoolManagerState :=
  let m := PoolManager.init num_pools headers
  { m with
    pool_classes_by_scheme := fun s =>
      if s = UnixHostHTTPConnectionPool.scheme then some PoolClass.unixHostPool
      else m.pool_classes_by_scheme s
    key_fn_by_scheme := fun s =>
      if s = UnixHostHTTPConnectionPool.scheme then m.key_fn_by_scheme "http"
      else m.key_fn_by_scheme s }

/-- C1: After constructing a `UnixHTTPPoolManager`, the `key_fn_by_scheme`
entry for "http+unix" is identical to the entry for "http" (the same
function object), and the `pool_classes_by_scheme` entry for "http+unix" is
the URI-addressed pool class `UnixHostHTTPConnectionPool`. -/
theorem c1_manager_registration (num_pools : Nat) (headers : List (String × String)) :
    (UnixHTTPPoolManager.init num_pools headers).key_fn_by_scheme "http+unix"
        = (UnixHTTPPoolManager.init num_pools headers).key_fn_by_scheme "http"
      ∧ (UnixHTTPPoolManager.init num_pools headers).pool_classes_by_scheme "http+unix"
        = some PoolClass.unixHostPool := by
  constructor <;> rfl

/-- C9: Constructing a `UnixHTTPPoolManager` modifies only the "http+unix"
entry of the two scheme registries: for every other scheme, both entries
equal those of a generic `PoolManager` constructed with the same
arguments. -/
theorem c9_manager_frame (num_pools : Nat) (headers : List (String × String))
    (s : String) (hs : s ≠ "http+unix") :
    (UnixHTTPPoolManager.init num_pools headers).pool_classes_by_scheme s
        = (PoolManager.init num_pools headers).pool_classes_by_scheme s
      ∧ (UnixHTTPPoolManager.init num_pools headers).key_fn_by_scheme s
        = (PoolManager.init num_pools headers).key_fn_by_scheme s := by
  have hs' : s ≠ UnixHostHTTPConnectionPool.scheme := hs
  constructor <;> simp [UnixHTTPPoolManager.init, hs']

/-- Witness for C9 at the concrete scheme "https". -/
theorem c9_manager_frame_witness :
    ("https" : String) ≠ "http+unix"
      ∧ ((UnixHTTPPoolManager.init 10 []).pool_classes_by_scheme "https"
          = (PoolManager.init 10 []).pool_classes_by_scheme "https"
        ∧ (UnixHTTPPoolManager.init 10 []).key_fn_by_scheme "https"
          = (PoolManager.init 10 []).key_fn_by_scheme "https") :=
  ⟨by decide, c9_manager_frame 10 [] "https" (by decide)⟩

/-- C4: Constructing a `UnixHostHTTPConnectionPool` with an explicit numeric
port is total (never raises), the stored socket path equals the host string
exactly, the port has no effect on the resulting pool at all, and the
connections the pool creates use that same socket path. -/
theorem c4_port_ignored (host : String) (port port' : Option Nat) (kw : PoolKw) :
    (UnixHostHTTPConnectionPool.init host port kw).socket_path = host
      ∧ UnixHostHTTPConnectionPool.init host port kw
          = UnixHostHTTPConnectionPool.init host port' kw
      ∧ ((UnixHostHTTPConnectionPool.init host port kw).new_conn).2.2.socket_path
          = host := by
  refine ⟨rfl, rfl, rfl⟩

/-- C6: Constructing a `UnixHTTPConnection` stores the socket path,
substitutes the synthetic host "localhost" for the underlying HTTP
connection, and the class's `default_port` is `None`. -/
theorem c6_conn_construction (path : String) (t : TimeoutVal) (opts : List SockOpt) :
    UnixHTTPConnection.init path { host := none, timeout := t, socket_options := opts }
        = Except.ok (UnixHTTPConnection.make path t opts)
      ∧ (UnixHTTPConnection.make path t opts).socket_path = path
      ∧ (UnixHTTPConnection.make path t opts).host = "localhost"
      ∧ UnixHTTPConnection.default_port = none := by
  refine ⟨rfl, rfl, rfl, rfl⟩

/-- C10: Constructing a `UnixHTTPConnection` with an additional explicit
`host` keyword argument raises a `TypeError` (duplicate keyword `host` in
the delegated call `super().__init__(host="localhost", **kwargs)`), for
every socket path and every attempted host value. -/
theorem c10_host_kwarg_type_error (path h : String) (t : TimeoutVal)
    (opts : List SockOpt) :
    UnixHTTPConnection.init path { host := some h, timeout := t, socket_options := opts }
      = Except.error PyErr.typeError := by
  rfl

/-- C2: Each call to `UnixHTTPConnectionPool._new_conn` increments
`num_connections` by exactly 1, emits one debug event carrying the new
counter value and the socket path, and returns a new `UnixHTTPConnection`
whose socket path equals the pool's and whose timeout is the
connect-timeout of the pool's timeout policy. -/
theorem c2_pool_new_conn (p : UnixHTTPConnectionPool) :
    (p.new_conn).1.num_connections = p.num_connections + 1
      ∧ (p.new_conn).2.1 = { count := p.num_connections + 1, dest := p.socket_path }
      ∧ (p.new_conn).2.2.socket_path = p.socket_path
      ∧ (p.new_conn).2.2.timeout = p.timeout.connect_timeout
      ∧ (p.new_conn).2.2 = UnixHTTPConnection.make p.socket_path
          p.timeout.connect_timeout p.conn_kw := by
  refine ⟨rfl, rfl, rfl, rfl, rfl⟩

/-- The property C3 asserts of `UnixHTTPConnection._new_conn`: the first
action creates an `AF_UNIX` stream socket; the configured socket options are
all applied strictly before the connect, which is the final action; a
`settimeout` with value `t` happens exactly when the configured timeout is
the explicit value `t` (and never when it is the global-default sentinel);
and the run returns the connected socket. -/
def NewConnSteps (c : UnixHTTPConnection) (env : String → Bool) : Prop :=
  c.new_conn_trace.head? = some (SockEvent.create AddrFamily.af_unix SockKind.sock_stream)
    ∧ (∃ pre, c.new_conn_trace = pre ++ [SockEvent.connectTo c.socket_path]
        ∧ (∀ o, SockEvent.setopt o ∈ pre ↔ o ∈ c.socket_options)
        ∧ (∀ q, SockEvent.connectTo q ∉ pre))
    ∧ (∀ t, SockEvent.settimeout t ∈ c.new_conn_trace ↔ c.timeout = TimeoutVal.explicit t)
    ∧ (c.new_conn_run env).1 = c.new_conn_trace
    ∧ (c.new_conn_run env).2 = Except.ok c.socket_path

/-- C3: Opening a `UnixHTTPConnection` creates an `AF_UNIX` stream socket,
applies the configured socket options before connecting, sets a timeout if
and only if the configured timeout is not the global-default sentinel, then
connects to the socket path and returns the connected socket. -/
theorem c3_conn_open_steps (c : UnixHTTPConnection) (env : String → Bool)
    (henv : env c.socket_path = true) : NewConnSteps c env := by
  refine ⟨rfl, ?_, ?_, rfl, ?_⟩
  · refine ⟨[SockEvent.create AddrFamily.af_unix SockKind.sock_stream]
        ++ set_socket_options c.socket_options ++ timeoutEvents c.timeout,
      by simp [UnixHTTPConnection.new_conn_trace], ?_, ?_⟩
    · intro o
      cases c.timeout <;>
        simp [set_socket_options, timeoutEvents]
    · intro q
      cases c.timeout <;>
        simp [set_socket_options, timeoutEvents]
  · intro t
    rcases h : c.timeout with _ | u <;>
      simp [UnixHTTPConnection.new_conn_trace, set_socket_options, timeoutEvents, h,
        eq_comm]
  · simp [UnixHTTPConnection.new_conn_run, henv]

/-- A concrete connection used to witness C3: explicit timeout 5, one socket
option, path "/run/s.sock". -/
def c3conn : UnixHTTPConnection :=
  UnixHTTPConnection.make "/run/s.sock" (TimeoutVal.explicit 5) [{ level := 1, optname := 2, value := 3 }]

/-- Witness for C3 at a concrete connection and an environment where the
connect succeeds. -/
theorem c3_conn_open_steps_witness :
    (fun _ : String => true) c3conn.socket_path = true
      ∧ NewConnSteps c3conn (fun _ => true) :=
  ⟨rfl, c3_conn_open_steps c3conn (fun _ => true) rfl⟩

/-- A connection to a socket path that does not exist, used for C7. -/
def c7conn : UnixHTTPConnection :=
  UnixHTTPConnection.make "/nonexistent.sock" TimeoutVal.globalDefault []

/-- An environment in which no socket path accepts a connection. -/
def noListener : String → Bool := fun _ => false

/-- C7: Opening a `UnixHTTPConnection` to a non-existent socket path fails
with a connect error — but the failed-to-connect socket is NOT closed on the
exception exit path: the trace of the failing run contains a socket
creation and no `close` at all, so the socket handle leaks.  This
contradicts the spec's cleanup requirement ("closing a failed-to-connect
socket must happen on every exit path"): the source body has no
`try`/`finally` around the connect. -/
theorem c7_failed_connect_leaks_socket :
    (c7conn.new_conn_run noListener).2 = Except.error OSErr.connectFailure
      ∧ SockEvent.create AddrFamily.af_unix SockKind.sock_stream
          ∈ (c7conn.new_conn_run noListener).1
      ∧ SockEvent.close ∉ (c7conn.new_conn_run noListener).1 := by
  refine ⟨rfl, by decide, by decide⟩

/-- The single-quote character, the default repr quote in CPython. -/
def sqChar : Char := Char.ofNat 39

/-- The double-quote character. -/
def dqChar : Char := Char.ofNat 34

/-- The backslash character. -/
def backslashChar : Char := Char.ofNat 92

/-- The horizontal-tab character. -/
def tabChar : Char := Char.ofNat 9

/-- The line-feed character. -/
def lfChar : Char := Char.ofNat 10

/-- The carriage-return character. -/
def crChar : Char := Char.ofNat 13

/-- Lower-case hexadecimal digit for a value below 16. -/
def hexDigit (n : Nat) : Char :=
  if n < 10 then Char.ofNat (48 + n) else Char.ofNat (87 + n)

/-- Two lower-case hexadecimal digits of a byte value. -/
def hex2 (n : Nat) : String :=
  String.mk [hexDigit (n / 16 % 16), hexDigit (n % 16)]

/-- Model of CPython repr escaping of one character under a chosen quote
character: backslash and the quote are backslash-escaped, tab, line feed and
carriage return become two-character escapes, other non-printable ASCII
(codepoint below 32 or equal to 127) becomes a hexadecimal escape, and
everything else is rendered verbatim.  (Codepoints above 127 are kept
verbatim; the source relies on CPython repr, whose non-ASCII handling is not
exercised by filesystem socket paths here.) -/
def pyCharEscape (quote : Char) (c : Char) : String :=
  if c = backslashChar then String.mk [backslashChar, backslashChar]
  else if c = quote then String.mk [backslashChar, quote]
  else if c = tabChar then String.mk [backslashChar, Char.ofNat 116]
  else if c = lfChar then String.mk [backslashChar, Char.ofNat 110]
  else if c = crChar then String.mk [backslashChar, Char.ofNat 114]
  else if c.toNat < 32 ∨ c.toNat = 127 then
    String.mk [backslashChar, Char.ofNat 120] ++ hex2 c.toNat
  else String.singleton c

/-- Escape every character of a list, concatenated. -/
def escapeList (quote : Char) : List Char → String
  | [] => ""
  | c :: cs => pyCharEscape quote c ++ escapeList quote cs

/-- Quote character CPython repr picks for a string: a single quote, unless
the string contains a single quote and no double quote, in which case a
double quote. -/
def pyQuote (s : String) : Char :=
  if sqChar ∈ s.data ∧ dqChar ∉ s.data then dqChar else sqChar

/-- Model of CPython `repr` of a string, as produced by the `!r` conversion
in a format string: the chosen quote, the escaped characters, the quote. -/
def pyStrRepr (s : String) : String :=
  String.singleton (pyQuote s) ++ escapeList (pyQuote s) s.data
    ++ String.singleton (pyQuote s)

/-- Embedding of `UnixHTTPConnectionPool.__str__` (inherited unchanged by
`UnixHostHTTPConnectionPool`): the format string interpolates
`type(self).__name__` plainly and `self.socket_path` with the `!r` (repr)
conversion. -/
def UnixHTTPConnectionPool.toStr (p : UnixHTTPConnectionPool) : String :=
  p.cls.name ++ "(socket_path=" ++ pyStrRepr p.socket_path ++ ")"

/-- Characters repr renders verbatim under single-quote quoting: printable
(codepoint at least 32 and not 127), not a backslash, not a single quote. -/
def benignChar (c : Char) : Bool :=
  decide (32 ≤ c.toNat) && decide (c.toNat ≠ 127) && decide (c ≠ backslashChar)
    && decide (c ≠ sqChar)

theorem pyCharEscape_benign (c : Char) (h : benignChar c = true) :
    pyCharEscape sqChar c = String.singleton c := by
  simp only [benignChar, Bool.and_eq_true, decide_eq_true_eq] at h
  obtain ⟨⟨⟨h1, h2⟩, h3⟩, h4⟩ := h
  have ht : c ≠ tabChar := by rintro rfl; exact absurd h1 (by decide)
  have hl : c ≠ lfChar := by rintro rfl; exact absurd h1 (by decide)
  have hc : c ≠ crChar := by rintro rfl; exact absurd h1 (by decide)
  have hx : ¬(c.toNat < 32 ∨ c.toNat = 127) := by
    rintro (hlt | he)
    · exact absurd h1 (Nat.not_le.mpr hlt)
    · exact h2 he
  simp [pyCharEscape, h3, h4, ht, hl, hc, hx]

theorem strMk_data (s : String) : String.mk s.data = s := by
  rcases s with ⟨l⟩
  rfl

theorem escapeList_benign : ∀ l : List Char, (∀ c ∈ l, benignChar c = true) →
    escapeList sqChar l = String.mk l
  | [], _ => rfl
  | c :: cs, h => by
    have hc := h c (List.mem_cons_self c cs)
    have hcs := escapeList_benign cs (fun x hx => h x (List.mem_cons_of_mem c hx))
    show pyCharEscape sqChar c ++ escapeList sqChar cs = String.mk (c :: cs)
    rw [pyCharEscape_benign c hc, hcs]
    apply String.ext
    simp [String.singleton]

theorem pyQuote_benign (s : String) (h : ∀ c ∈ s.data, benignChar c = true) :
    pyQuote s = sqChar := by
  rw [pyQuote, if_neg]
  rintro ⟨hin, -⟩
  exact absurd (h sqChar hin) (by decide)

theorem pyStrRepr_benign (s : String) (h : ∀ c ∈ s.data, benignChar c = true) :
    pyStrRepr s = String.singleton sqChar ++ s ++ String.singleton sqChar := by
  rw [pyStrRepr, pyQuote_benign s h, escapeList_benign s.data h, strMk_data]

/-- Pool configuration with the global-default timeouts and no extra
connection kwargs, used in concrete instances below. -/
def c5kw : PoolKw :=
  { timeout := { connect_timeout := TimeoutVal.globalDefault,
                 read_timeout := TimeoutVal.globalDefault }
    conn_kw := [] }

/-- Counterexample to C5 as stated: for the path "/tmp/x", `str(pool)` is
NOT `ClassName(socket_path=/tmp/x)` with the stored path spliced in
verbatim — the `!r` conversion in the source's format string renders the
path as a Python repr, i.e. wrapped in quotes (and with special characters
escaped). -/
theorem c5_counterexample_raw_path :
    (UnixHTTPConnectionPool.init UnixPoolCls.unixHTTPConnectionPool "/tmp/x" c5kw).toStr
      ≠ "UnixHTTPConnectionPool(socket_path=/tmp/x)" := by
  decide

/-- C5 amended: `str(pool)` equals `<ClassName>(socket_path=<repr>)` where
`<repr>` is the Python repr of the stored path; for every path whose
characters are printable and contain no quote or backslash this is the path
wrapped in single quotes, for both pool classes. -/
theorem c5_str_format_amended (cls : UnixPoolCls) (path : String) (kw : PoolKw)
    (h : ∀ c ∈ path.data, benignChar c = true) :
    (UnixHTTPConnectionPool.init cls path kw).toStr
      = cls.name ++ "(socket_path=" ++ String.singleton sqChar ++ path
          ++ String.singleton sqChar ++ ")" := by
  show cls.name ++ "(socket_path=" ++ pyStrRepr path ++ ")" = _
  rw [pyStrRepr_benign path h]
  apply String.ext
  simp

/-- Witness for the amended C5 at the concrete path "/tmp/x". -/
theorem c5_str_format_amended_witness :
    (∀ c ∈ ("/tmp/x" : String).data, benignChar c = true)
      ∧ (UnixHTTPConnectionPool.init UnixPoolCls.unixHTTPConnectionPool "/tmp/x" c5kw).toStr
        = UnixPoolCls.name UnixPoolCls.unixHTTPConnectionPool ++ "(socket_path="
            ++ String.singleton sqChar ++ "/tmp/x" ++ String.singleton sqChar ++ ")" :=
  ⟨by decide,
   c5_str_format_amended UnixPoolCls.unixHTTPConnectionPool "/tmp/x" c5kw (by decide)⟩

/-- Program counter of one caller thread running
`UnixHTTPConnectionPool._new_conn` once.  Modelled from the spec: the
mutual-exclusion discipline serializing the pool's creation bookkeeping
lives in the generic pool framework, which is not under the sources; per the
spec the counter "must only be mutated while holding the pool's lock".  A
thread is `ready` before its call, `locked v` while holding the lock having
read counter value `v`, and `done` after writing back `v + 1` and releasing
the lock. -/
inductive ThreadPC where
  | ready
  | locked (readVal : Nat)
  | done
deriving DecidableEq

/-- Global state of `N` concurrent callers: the shared creation counter
`num_connections` and each thread's program counter.  The lock is held by
thread `t` exactly when `pcs t = locked v` for some `v`. -/
structure PoolSt (N : Nat) where
  counter : Nat
  pcs : Fin N → ThreadPC

/-- No thread holds the pool's lock. -/
def lockFree {N : Nat} (s : PoolSt N) : Prop :=
  ∀ t v, s.pcs t ≠ ThreadPC.locked v

/-- Interleaving semantics of the `N` concurrent `_new_conn` calls: a thread
may acquire the free lock and read the counter, or — holding the lock —
write the incremented value and release.  Only a lock-holding thread ever
changes the counter. -/
inductive CreateStep (N : Nat) : PoolSt N → PoolSt N → Prop where
  | acquire (s : PoolSt N) (t : Fin N) (h : s.pcs t = ThreadPC.ready)
      (hfree : lockFree s) :
      CreateStep N s
        ⟨s.counter, fun u => if u = t then ThreadPC.locked s.counter else s.pcs u⟩
  | incrWrite (s : PoolSt N) (t : Fin N) (v : Nat)
      (h : s.pcs t = ThreadPC.locked v) :
      CreateStep N s ⟨v + 1, fun u => if u = t then ThreadPC.done else s.pcs u⟩

/-- Initial state: counter zero, every thread about to call. -/
def initSt (N : Nat) : PoolSt N := ⟨0, fun _ => ThreadPC.ready⟩

/-- Threads whose call has completed. -/
def doneSet {N : Nat} (s : PoolSt N) : Finset (Fin N) :=
  Finset.univ.filter (fun t => s.pcs t = ThreadPC.done)

/-- Inductive invariant: at most one thread holds the lock, the lock
holder's read value equals the current counter (no stale reads), and the
counter equals the number of completed calls (no lost updates so far). -/
def PoolInv {N : Nat} (s : PoolSt N) : Prop :=
  (∀ t u v w, s.pcs t = ThreadPC.locked v → s.pcs u = ThreadPC.locked w → t = u)
    ∧ (∀ t v, s.pcs t = ThreadPC.locked v → v = s.counter)
    ∧ s.counter = (doneSet s).card

theorem poolInv_init (N : Nat) : PoolInv (initSt N) := by
  refine ⟨?_, ?_, ?_⟩
  · intro t u v w ht
    simp [initSt] at ht
  · intro t v ht
    simp [initSt] at ht
  · simp [initSt, doneSet]

theorem poolInv_step {N : Nat} {s s' : PoolSt N} (h : CreateStep N s s')
    (hinv : PoolInv s) : PoolInv s' := by
  obtain ⟨hmux, hread, hcount⟩ := hinv
  cases h with
  | acquire t ht hfree =>
      refine ⟨?_, ?_, ?_⟩
      · intro a b v w ha hb
        by_cases hat : a = t
        · by_cases hbt : b = t
          · rw [hat, hbt]
          · simp [hbt] at hb
            exact absurd hb (hfree b w)
        · simp [hat] at ha
          exact absurd ha (hfree a v)
      · intro a v ha
        by_cases hat : a = t
        · simp [hat] at ha
          exact ha.symm
        · simp [hat] at ha
          exact absurd ha (hfree a v)
      · have hds : doneSet (⟨s.counter,
            fun u => if u = t then ThreadPC.locked s.counter else s.pcs u⟩ : PoolSt N)
            = doneSet s := by
          apply Finset.ext
          intro u
          by_cases hut : u = t <;>
            simp [doneSet, hut, ht]
        rw [hds]
        exact hcount
  | incrWrite t v ht =>
      have hv : v = s.counter := hread t v ht
      refine ⟨?_, ?_, ?_⟩
      · intro a b w w' ha hb
        by_cases hat : a = t
        · simp [hat] at ha
        · simp [hat] at ha
          exact absurd (hmux a t w v ha ht) hat
      · intro a w ha
        by_cases hat : a = t
        · simp [hat] at ha
        · simp [hat] at ha
          exact absurd (hmux a t w v ha ht) hat
      · have htnd : t ∉ doneSet s := by
          simp [doneSet, ht]
        have hds : doneSet (⟨v + 1,
            fun u => if u = t then ThreadPC.done else s.pcs u⟩ : PoolSt N)
            = insert t (doneSet s) := by
          apply Finset.ext
          intro u
          by_cases hut : u = t <;>
            simp [doneSet, hut]
        show v + 1 = _
        rw [hds, Finset.card_insert_of_not_mem htnd, hv, hcount]

theorem poolInv_run {N : Nat} {s : PoolSt N}
    (hrun : Relation.ReflTransGen (CreateStep N) (initSt N) s) : PoolInv s := by
  induction hrun with
  | refl => exact poolInv_init N
  | tail hpre hstep ih => exact poolInv_step hstep ih

/-- C8: Under `N` concurrent callers each invoking `_new_conn` once on the
same pool, with the counter read and written only while holding the pool's
lock (modelled from the spec), every complete interleaving ends with the
creation counter equal to `N` — one increment per call, no lost updates —
and every step that changes the counter is taken by a thread holding the
lock. -/
theorem c8_counter_no_lost_updates (N : Nat) (s : PoolSt N)
    (hrun : Relation.ReflTransGen (CreateStep N) (initSt N) s)
    (hdone : ∀ t, s.pcs t = ThreadPC.done) :
    s.counter = N
      ∧ (∀ s1 s2 : PoolSt N, CreateStep N s1 s2 →
          s2.counter ≠ s1.counter → ∃ t v, s1.pcs t = ThreadPC.locked v) := by
  constructor
  · have hinv : PoolInv s := poolInv_run hrun
    have hds : doneSet s = Finset.univ := by
      apply Finset.ext
      intro u
      simp [doneSet, hdone]
    rw [hinv.2.2, hds, Finset.card_univ, Fintype.card_fin]
  · intro s1 s2 hstep hne
    cases hstep with
    | acquire t ht hfree => exact absurd rfl hne
    | incrWrite t v hv => exact ⟨t, v, hv⟩

/-- Intermediate state of the witness run: the single thread holds the lock
having read counter value 0. -/
def c8mid : PoolSt 1 :=
  ⟨(initSt 1).counter,
   fun u => if u = (0 : Fin 1) then ThreadPC.locked (initSt 1).counter
            else (initSt 1).pcs u⟩

/-- Final state of the witness run: the single thread has written 1 and
completed. -/
def c8fin : PoolSt 1 :=
  ⟨0 + 1, fun u => if u = (0 : Fin 1) then ThreadPC.done else c8mid.pcs u⟩

/-- Witness for C8: a concrete complete run with one thread, reaching the
all-done state with counter 1. -/
theorem c8_counter_no_lost_updates_witness :
    Relation.ReflTransGen (CreateStep 1) (initSt 1) c8fin
      ∧ (∀ t, c8fin.pcs t = ThreadPC.done)
      ∧ (c8fin.counter = 1
          ∧ ∀ s1 s2 : PoolSt 1, CreateStep 1 s1 s2 →
              s2.counter ≠ s1.counter → ∃ t v, s1.pcs t = ThreadPC.locked v) := by
  have hstep1 : CreateStep 1 (initSt 1) c8mid :=
    CreateStep.acquire (initSt 1) 0 rfl (fun t v h => by simp [initSt] at h)
  have hstep2 : CreateStep 1 c8mid c8fin :=
    CreateStep.incrWrite c8mid 0 0 rfl
  have hrun : Relation.ReflTransGen (CreateStep 1) (initSt 1) c8fin :=
    (Relation.ReflTransGen.single hstep1).tail hstep2
  have hdone : ∀ t, c8fin.pcs t = ThreadPC.done := by decide
  exact ⟨hrun, hdone, c8_counter_no_lost_updates 1 c8fin hrun hdone⟩

end Urllib3Unix
